import Mathlib

/-!
Verification development for the DefraDB core: shallow embeddings of the
count aggregate node (planner/count.go), the compiled collection
descriptions produced by the schema manager (as fixed by the tests in the
repository), the relation manager, the per-document commit DAG, the
group-by node, the commits(cid:) query, document-key derivation and the
HTTP error envelope, together with theorems settling the specification
claims about them.
-/

set_option autoImplicit false

namespace DefraDB

/-! ## Embedding of planner/count.go -/

/-- A Go float64 value, represented by its bit pattern.  The count node never
interprets float contents, so the bit-level representation is exact. -/
structure GoF64 where
  bits : Nat
deriving DecidableEq, Repr

/-- The slice of core.Doc visible to countDocs: only the Hidden flag is read. -/
structure SubDoc where
  hidden : Bool
deriving DecidableEq, Repr

/-- A dynamic Go value as it can appear in core.Doc.Fields, covering exactly the
cases distinguished by countNode.Next: the typed slices of its type switch,
plain scalar values, strings, and abstract map/chan values carrying their
length. -/
inductive Property where
  | pNil
  | pBool (b : Bool)
  | pInt (i : Int)
  | pFloat (f : GoF64)
  | pStr (s : String)
  | pDocs (l : List SubDoc)
  | pBools (l : List Bool)
  | pOptBools (l : List (Option Bool))
  | pInts (l : List Int)
  | pOptInts (l : List (Option Int))
  | pFloats (l : List GoF64)
  | pOptFloats (l : List (Option GoF64))
  | pStrs (l : List String)
  | pOptStrs (l : List (Option String))
  | pMap (len : Nat)
  | pChan (len : Nat)
deriving DecidableEq, Repr

/-- The reflect.Kind classification used by countNode.Next. -/
inductive GoKind where
  | array
  | chan
  | map
  | slice
  | string
  | other
deriving DecidableEq, Repr

/-- reflect.ValueOf(property).Kind() for the values of our Property type. -/
def goKind : Property → GoKind
  | .pStr _ => .string
  | .pDocs _ => .slice
  | .pBools _ => .slice
  | .pOptBools _ => .slice
  | .pInts _ => .slice
  | .pOptInts _ => .slice
  | .pFloats _ => .slice
  | .pOptFloats _ => .slice
  | .pStrs _ => .slice
  | .pOptStrs _ => .slice
  | .pMap _ => .map
  | .pChan _ => .chan
  | _ => .other

/-- reflect.Value.Len for values whose kind admits a length. -/
def goLen : Property → Nat
  | .pStr s => s.length
  | .pDocs l => l.length
  | .pBools l => l.length
  | .pOptBools l => l.length
  | .pInts l => l.length
  | .pOptInts l => l.length
  | .pFloats l => l.length
  | .pOptFloats l => l.length
  | .pStrs l => l.length
  | .pOptStrs l => l.length
  | .pMap n => n
  | .pChan n => n
  | _ => 0

/-- An element passed to mapper.RunFilter from one of the typed slices. -/
inductive Elem where
  | eBool (b : Bool)
  | eOptBool (o : Option Bool)
  | eInt (i : Int)
  | eOptInt (o : Option Int)
  | eFloat (f : GoF64)
  | eOptFloat (o : Option GoF64)
  | eStr (s : String)
  | eOptStr (o : Option String)

/-- mapper.Limit. -/
structure Limit where
  limit : Nat
  offset : Nat

/-- mapper.AggregateTarget: the index of the targeted field plus optional
filter and limit.  mapper.RunFilter is outside src, so the filter is carried
as the predicate it denotes on elements. -/
structure AggregateTarget where
  index : Nat
  filter : Option (Elem → Bool)
  limit : Option Limit

/-- countDocs from planner/count.go: counts documents, skipping hidden ones. -/
def countDocs : List SubDoc → Nat
  | [] => 0
  | d :: rest => (if d.hidden then 0 else 1) + countDocs rest

/-- countItems from planner/count.go: enumerable.Where with the filter, then
enumerable.Skip/Take with the limit, then count the survivors. -/
def countItems {T : Type} (source : List T) (filter : Option (T → Bool))
    (limit : Option Limit) : Nat :=
  let items := match filter with
    | none => source
    | some f => source.filter f
  let items := match limit with
    | none => items
    | some l => (items.drop l.offset).take l.limit
  items.length

/-- The type switch of countNode.Next that runs when a filter or limit is
present: doc slices go through countDocs (which ignores the filter and
limit), the eight supported scalar-slice types go through countItems, and
any other type leaves arrayCount at zero. -/
def typedSwitchCount (p : Property) (filter : Option (Elem → Bool))
    (limit : Option Limit) : Nat :=
  match p with
  | .pDocs l => countDocs l
  | .pBools l => countItems l (filter.map fun f b => f (.eBool b)) limit
  | .pOptBools l => countItems l (filter.map fun f o => f (.eOptBool o)) limit
  | .pInts l => countItems l (filter.map fun f i => f (.eInt i)) limit
  | .pOptInts l => countItems l (filter.map fun f o => f (.eOptInt o)) limit
  | .pFloats l => countItems l (filter.map fun f x => f (.eFloat x)) limit
  | .pOptFloats l => countItems l (filter.map fun f o => f (.eOptFloat o)) limit
  | .pStrs l => countItems l (filter.map fun f s => f (.eStr s)) limit
  | .pOptStrs l => countItems l (filter.map fun f o => f (.eOptStr o)) limit
  | _ => 0

/-- The per-target contribution inside the loop of countNode.Next: values whose
reflect kind is not Array, Chan, Map, Slice or String contribute nothing;
otherwise v.Len() when no filter and no limit is set, else the type switch. -/
def contribOf (p : Property) (filter : Option (Elem → Bool))
    (limit : Option Limit) : Nat :=
  match goKind p with
  | .other => 0
  | _ =>
    if filter.isNone && limit.isNone then goLen p
    else typedSwitchCount p filter limit

/-- The contribution of one aggregate target to countNode.Next:
property := currentValue.Fields[source.Index] (absent index reads as nil). -/
def contribution (fields : List Property) (t : AggregateTarget) : Nat :=
  contribOf (fields.getD t.index .pNil) t.filter t.limit

/-- countNode.Next: sums the contributions of all aggregate targets and writes
the count into the virtual aggregate cell of the current row. -/
def countNodeNext (targets : List AggregateTarget) (virtualFieldIndex : Nat)
    (fields : List Property) : List Property :=
  let count := targets.foldl (fun acc t => acc + contribution fields t) 0
  fields.set virtualFieldIndex (.pInt (Int.ofNat count))

/-! ## Embedding of the compiled collection descriptions

The schema manager (FromString) is not under src; the expected collection
descriptions it produces are fixed, case by case, by
query/graphql/schema/descriptions tests in the repository, and those target
descriptions are embedded here verbatim as the authority on the compiled
output. -/

/-- client.FieldKind, restricted to the kinds appearing in the fixtures. -/
inductive FieldKind where
  | docKey
  | boolKind
  | intKind
  | floatKind
  | stringKind
  | foreignObject
  | foreignObjectArray
deriving DecidableEq, Repr

/-- client.CType. -/
inductive CrdtType where
  | noneCrdt
  | lwwRegister
  | compositeCrdt
deriving DecidableEq, Repr

/-- client.RelationType, as the set of bits that can be combined. -/
structure RelType where
  one : Bool := false
  many : Bool := false
  oneone : Bool := false
  onemany : Bool := false
  manymany : Bool := false
  primary : Bool := false
  internalId : Bool := false
deriving DecidableEq, Repr

/-- client.FieldDescription, restricted to the components the fixtures set. -/
structure FieldDescription where
  name : String
  kind : FieldKind
  typ : CrdtType
  relationName : String := ""
  schemaName : String := ""
  relType : RelType := {}
deriving DecidableEq, Repr

/-- client.CollectionDescription together with its schema field list. -/
structure CollectionDescription where
  name : String
  fields : List FieldDescription
deriving DecidableEq, Repr

/-- The implicit document-key field every collection carries. -/
def keyField : FieldDescription :=
  { name := "_key", kind := .docKey, typ := .noneCrdt }

/-- Target description for type user of the simple-type fixture. -/
def userDesc : CollectionDescription :=
  { name := "user"
    fields :=
      [ keyField
      , { name := "age", kind := .intKind, typ := .lwwRegister }
      , { name := "name", kind := .stringKind, typ := .lwwRegister }
      , { name := "verified", kind := .boolKind, typ := .lwwRegister } ] }

/-- Target description for type author of the multiple-simple-types fixture. -/
def authorDescSimple : CollectionDescription :=
  { name := "author"
    fields :=
      [ keyField
      , { name := "name", kind := .stringKind, typ := .lwwRegister }
      , { name := "publisher", kind := .stringKind, typ := .lwwRegister }
      , { name := "rating", kind := .floatKind, typ := .lwwRegister } ] }

/-- Target description for type book of the one-to-one fixture
(book.author declared first, no directives). -/
def bookDescOneToOne : CollectionDescription :=
  { name := "book"
    fields :=
      [ keyField
      , { name := "author", kind := .foreignObject, typ := .noneCrdt
          relationName := "author_book", schemaName := "author"
          relType := { one := true, oneone := true } }
      , { name := "author_id", kind := .docKey, typ := .lwwRegister
          relType := { internalId := true } }
      , { name := "name", kind := .stringKind, typ := .lwwRegister }
      , { name := "rating", kind := .floatKind, typ := .lwwRegister } ] }

/-- Target description for type author of the one-to-one fixture
(author declared second, so its side is auto-promoted to Primary). -/
def authorDescOneToOne : CollectionDescription :=
  { name := "author"
    fields :=
      [ keyField
      , { name := "age", kind := .intKind, typ := .lwwRegister }
      , { name := "name", kind := .stringKind, typ := .lwwRegister }
      , { name := "published", kind := .foreignObject, typ := .noneCrdt
          relationName := "author_book", schemaName := "book"
          relType := { one := true, oneone := true, primary := true } }
      , { name := "published_id", kind := .docKey, typ := .lwwRegister
          relType := { internalId := true } } ] }

/-- Target description for type book of the one-to-one fixture with an
explicit primary directive on book.author. -/
def bookDescPrimaryDirective : CollectionDescription :=
  { name := "book"
    fields :=
      [ keyField
      , { name := "author", kind := .foreignObject, typ := .noneCrdt
          relationName := "author_book", schemaName := "author"
          relType := { one := true, oneone := true, primary := true } }
      , { name := "author_id", kind := .docKey, typ := .lwwRegister
          relType := { internalId := true } }
      , { name := "name", kind := .stringKind, typ := .lwwRegister }
      , { name := "rating", kind := .floatKind, typ := .lwwRegister } ] }

/-- Target description for type author of the primary-directive fixture. -/
def authorDescPrimaryDirective : CollectionDescription :=
  { name := "author"
    fields :=
      [ keyField
      , { name := "age", kind := .intKind, typ := .lwwRegister }
      , { name := "name", kind := .stringKind, typ := .lwwRegister }
      , { name := "published", kind := .foreignObject, typ := .noneCrdt
          relationName := "author_book", schemaName := "book"
          relType := { one := true, oneone := true } }
      , { name := "published_id", kind := .docKey, typ := .lwwRegister
          relType := { internalId := true } } ] }

/-- Target description for type book of the one-to-many fixture. -/
def bookDescOneToMany : CollectionDescription :=
  { name := "book"
    fields :=
      [ keyField
      , { name := "author", kind := .foreignObject, typ := .noneCrdt
          relationName := "author_book", schemaName := "author"
          relType := { one := true, onemany := true, primary := true } }
      , { name := "author_id", kind := .docKey, typ := .lwwRegister
          relType := { internalId := true } }
      , { name := "name", kind := .stringKind, typ := .lwwRegister }
      , { name := "rating", kind := .floatKind, typ := .lwwRegister } ] }

/-- Target description for type author of the one-to-many fixture: the many
side carries no synthesized foreign-key field. -/
def authorDescOneToMany : CollectionDescription :=
  { name := "author"
    fields :=
      [ keyField
      , { name := "age", kind := .intKind, typ := .lwwRegister }
      , { name := "name", kind := .stringKind, typ := .lwwRegister }
      , { name := "published", kind := .foreignObjectArray, typ := .noneCrdt
          relationName := "author_book", schemaName := "book"
          relType := { many := true, onemany := true } } ] }

/-- All embedded target descriptions. -/
def schemaFixtures : List CollectionDescription :=
  [ userDesc, authorDescSimple
  , bookDescOneToOne, authorDescOneToOne
  , bookDescPrimaryDirective, authorDescPrimaryDirective
  , bookDescOneToMany, authorDescOneToMany ]

/-- Whether the collection contains a synthesized internal-id mirror for the
field named base. -/
def hasIdMirrorName (d : CollectionDescription) (base : String) : Bool :=
  d.fields.any fun g =>
    g.name == base ++ "_id" && g.relType.internalId
      && g.kind == FieldKind.docKey && g.typ == CrdtType.lwwRegister

/-- Whether a field belongs to the relation block in the sense of the claimed
canonical field order: a relation object field or an internal-id mirror. -/
def isRelationBlockField (f : FieldDescription) : Bool :=
  f.kind == .foreignObject || f.kind == .foreignObjectArray || f.relType.internalId

/-- Lexicographic comparison of character lists by code point. -/
def charListLt : List Char → List Char → Bool
  | [], [] => false
  | [], _ :: _ => true
  | _ :: _, [] => false
  | a :: as, b :: bs =>
    if a.toNat < b.toNat then true
    else if b.toNat < a.toNat then false
    else charListLt as bs

/-- Byte-wise string order, as Go compares field names. -/
def strLtB (a b : String) : Bool := charListLt a.data b.data

/-- Ascending alphabetical order of a list of names. -/
def namesSortedAsc : List String → Bool
  | [] => true
  | [_] => true
  | a :: b :: rest => strLtB a b && namesSortedAsc (b :: rest)

/-- The field order the claim asserts: the key field first, then the relation
object fields with their internal-id mirrors, then only plain scalar fields,
those in ascending alphabetical order. -/
def claimedFieldOrder (d : CollectionDescription) : Bool :=
  match d.fields with
  | [] => false
  | f0 :: rest =>
    let relBlock := rest.takeWhile isRelationBlockField
    let scalars := rest.drop relBlock.length
    f0.name == "_key"
      && scalars.all (fun f => !isRelationBlockField f)
      && namesSortedAsc (scalars.map (·.name))

/-! ## Relation manager -/

/-- Modelled from the spec: one registered side of a relation in the relation
manager (RegisterSingle); the manager implementation is not under src, only
its tests are.  A side records the registering schema type, the field name,
whether the field arity is ONE, and whether it was annotated primary. -/
structure RelSide where
  schemaType : String
  fieldName : String
  one : Bool
  primary : Bool
deriving DecidableEq, Repr

/-- Modelled from the spec: a relation under resolution, holding its two
registered sides in registration (source declaration) order. -/
structure RelationReg where
  sides : List RelSide
deriving DecidableEq, Repr

/-- Number of sides of a relation bearing the Primary role. -/
def primaryCount (r : RelationReg) : Nat :=
  (r.sides.filter (fun s => s.primary)).length

/-- Modelled from the spec: validation and Primary assignment for a one-to-one
relation.  Exactly two sides of arity ONE are required; if both are annotated
primary the relation is rejected (PrimaryConflict); if exactly one is
annotated it keeps the role; if neither is, the side declared later in source
order is promoted. -/
def resolveOneToOne (r : RelationReg) : Option RelationReg :=
  match r.sides with
  | [s1, s2] =>
    if s1.one && s2.one then
      if s1.primary && s2.primary then
        none
      else if s1.primary || s2.primary then
        some r
      else
        some { sides := [s1, { s2 with primary := true }] }
    else
      none
  | _ => none

/-! ## Commit DAG

Modelled from the spec: the commit DAG (write algorithm, height computation,
head maintenance, canonical traversal order) is not under src; only the
allCommits query tests are.  CIDs are modelled by allocation order, which is
injective exactly as content addressing is; heights in the claims are
CID-independent. -/

/-- A commit: a field commit carries the mutated field name, a composite
commit carries none.  parentLinks are the unnamed links to the prior heads of
the same key; fieldLinks are the named links of a composite to the field
commits of its write. -/
structure Commit where
  cid : Nat
  height : Nat
  parentLinks : List Nat
  fieldLinks : List (String × Nat)
  fieldName : Option String
  delta : String
deriving DecidableEq, Repr

/-- The per-document DAG state: all commits, the per-field head sets and the
composite head set. -/
structure DagState where
  commits : List Commit
  fieldHeads : List (String × List Nat)
  compositeHeads : List Nat
  nextCid : Nat
deriving Repr

def emptyDag : DagState :=
  { commits := [], fieldHeads := [], compositeHeads := [], nextCid := 0 }

def lookupHeads (hs : List (String × List Nat)) (f : String) : List Nat :=
  match hs.find? (fun p => p.1 == f) with
  | some p => p.2
  | none => []

def setHeads (hs : List (String × List Nat)) (f : String) (v : List Nat) :
    List (String × List Nat) :=
  match hs with
  | [] => [(f, v)]
  | p :: rest => if p.1 == f then (f, v) :: rest else p :: setHeads rest f v

def heightOf (cs : List Commit) (cid : Nat) : Nat :=
  match cs.find? (fun c => c.cid == cid) with
  | some c => c.height
  | none => 0

def maxHeight (cs : List Commit) : List Nat → Nat
  | [] => 0
  | c :: rest => max (heightOf cs c) (maxHeight cs rest)

/-- One field commit: links to the current heads of (dockey, field), height is
one more than the highest parent (minimum 1), and the head set for the field
is replaced by the new commit. -/
def writeField (st : DagState) (f : String) (delta : String) : DagState × Nat :=
  let parents := lookupHeads st.fieldHeads f
  let h := 1 + maxHeight st.commits parents
  let c : Commit :=
    { cid := st.nextCid, height := h, parentLinks := parents, fieldLinks := []
      fieldName := some f, delta := delta }
  ({ commits := st.commits ++ [c]
     fieldHeads := setHeads st.fieldHeads f [st.nextCid]
     compositeHeads := st.compositeHeads
     nextCid := st.nextCid + 1 }, st.nextCid)

/-- The write algorithm: one field commit per updated field, then a composite
commit linking the new field commits by name and the prior composite heads as
parents; the composite head set becomes the singleton new commit. -/
def writeDoc (st : DagState) (updates : List (String × String)) : DagState :=
  let step := fun (acc : DagState × List (String × Nat)) (u : String × String) =>
    let (st2, cid) := writeField acc.1 u.1 u.2
    (st2, acc.2 ++ [(u.1, cid)])
  let (st1, fcids) := updates.foldl step (st, [])
  let parents := st1.compositeHeads
  let h := 1 + maxHeight st1.commits parents
  let c : Commit :=
    { cid := st1.nextCid, height := h, parentLinks := parents, fieldLinks := fcids
      fieldName := none, delta := "" }
  { commits := st1.commits ++ [c]
    fieldHeads := st1.fieldHeads
    compositeHeads := [st1.nextCid]
    nextCid := st1.nextCid + 1 }

def commitOf (cs : List Commit) (cid : Nat) : Option Commit :=
  cs.find? (fun c => c.cid == cid)

def parentsOf (cs : List Commit) (cid : Nat) : List Nat :=
  match commitOf cs cid with
  | some c => c.parentLinks
  | none => []

/-- Fuel-bounded breadth-first collection of the chain reachable from the
given frontier along parent links. -/
def chainFrom (cs : List Commit) : Nat → List Nat → List Nat
  | 0, _ => []
  | fuel + 1, frontier =>
    frontier ++ chainFrom cs fuel ((frontier.map (parentsOf cs)).flatten)

/-- Canonical traversal order of walkCommits: higher height first, ties broken
by CID ascending. -/
def canonicalBefore (a b : Commit) : Bool :=
  decide (b.height < a.height) || (a.height == b.height && decide (a.cid < b.cid))

def insertCanonical (c : Commit) : List Commit → List Commit
  | [] => [c]
  | d :: rest =>
    if canonicalBefore c d then c :: d :: rest else d :: insertCanonical c rest

def sortCanonical : List Commit → List Commit
  | [] => []
  | c :: rest => insertCanonical c (sortCanonical rest)

/-- allCommits(dockey): the chains of the current composite heads, in
canonical order. -/
def allCommits (st : DagState) : List Commit :=
  let cids := (chainFrom st.commits (st.commits.length + 1) st.compositeHeads).dedup
  sortCanonical (cids.filterMap (commitOf st.commits))

/-- The scenario of the claim: create user with Name John and Age 21. -/
def docCreated : DagState :=
  writeDoc emptyDag [("Name", "John"), ("Age", "21")]

/-- Then a single-field update setting Age to 22. -/
def docUpdated : DagState :=
  writeDoc docCreated [("Age", "22")]

/-! ## Group node -/

/-- A user row as in the group-by scenario: document key plus the Name and Age
fields. -/
structure GroupRow where
  dockey : String
  name : String
  age : Int
deriving DecidableEq, Repr

/-- Modelled from the spec: the groupNode bucketing (not under src; only its
integration test is).  Rows are bucketed by the key value; each distinct key
yields one bucket holding the rows with that key. -/
def groupRows (rows : List GroupRow) (key : GroupRow → Int) : List (Int × List GroupRow) :=
  ((rows.map key).dedup).map fun k => (k, rows.filter (fun r => key r == k))

/-- Modelled from the spec: the optional dockeys containment argument of the
_group subprojection keeps only members whose document key is in the
allow-list. -/
def applyDocKeys (allow : Option (List String)) (members : List GroupRow) :
    List GroupRow :=
  match allow with
  | none => members
  | some ks => members.filter (fun r => ks.contains r.dockey)

/-- The materialized group result: every bucket survives, with its _group list
restricted by the allow-list. -/
def groupResult (rows : List GroupRow) (key : GroupRow → Int)
    (allow : Option (List String)) : List (Int × List GroupRow) :=
  (groupRows rows key).map fun b => (b.1, applyDocKeys allow b.2)

/-! ## The commits query by CID -/

/-- A stored commit as surfaced by the commits query. -/
structure StoredCommit where
  cid : String
  height : Nat
  delta : String
deriving DecidableEq, Repr

/-- The multibase marker of base32, the letter b. -/
def multibase32Marker : Char := Char.ofNat 98

/-- Modelled from the spec: CID decoding (go-cid, not under src).  A CIDv1
sha-256 commit CID in base32 multibase is a 59-character string whose
multibase marker is b. -/
def validCidString (s : String) : Bool :=
  (match s.data with
    | [] => false
    | c :: _ => c == multibase32Marker)
  && s.length == 59

/-- Modelled from the spec: commits(cid: c) returns the single matching commit
(possibly empty); a CID that fails to decode yields the empty result rather
than an error. -/
def commitsWithCid (store : List StoredCommit) (c : String) :
    Except String (List StoredCommit) :=
  if validCidString c then
    .ok (store.filter (fun k => k.cid == c))
  else
    .ok []

/-! ## Document keys -/

/-- Hexadecimal digit characters. -/
def hexChar (n : Nat) : Char :=
  if n < 10 then Char.ofNat (48 + n) else Char.ofNat (87 + n)

/-- Fixed-width big-endian hexadecimal digits of a number. -/
def hexDigits : Nat → Nat → List Char
  | 0, _ => []
  | w + 1, n => hexDigits w (n / 16) ++ [hexChar (n % 16)]

/-- Modelled from the spec: the uuid-v5 derivation (sha1-based, outside src) as
a deterministic 128-bit digest of namespace and name. -/
def uuidDigest (ns s : String) : Nat :=
  ((ns ++ "/" ++ s).data).foldl (fun acc c => (acc * 131 + c.toNat) % 2 ^ 128) 7

/-- The dash separating uuid groups. -/
def dashChar : Char := Char.ofNat 45

/-- The canonical 8-4-4-4-12 text form of a 128-bit value. -/
def uuidFormat (n : Nat) : String :=
  String.mk
    (hexDigits 8 (n / 2 ^ 96) ++ dashChar :: hexDigits 4 (n / 2 ^ 80 % 2 ^ 16)
      ++ dashChar :: hexDigits 4 (n / 2 ^ 64 % 2 ^ 16)
      ++ dashChar :: hexDigits 4 (n / 2 ^ 48 % 2 ^ 16)
      ++ dashChar :: hexDigits 12 (n % 2 ^ 48))

/-- Modelled from the spec: the canonical serialization of the initial field
values, fields ordered by name. -/
def canonicalContent (fields : List (String × String)) : String :=
  String.join (((fields.map fun f => f.1 ++ "=" ++ f.2 ++ ";").mergeSort (· ≤ ·)))

/-- Modelled from the spec: a document key bae-uuid-v5 with the schema as
namespace and the canonical initial content as name. -/
def mkDocKey (schema : String) (fields : List (String × String)) : String :=
  "bae-" ++ uuidFormat (uuidDigest schema (canonicalContent fields))

/-- A database state: the stored documents keyed by document key. -/
structure DbState where
  docs : List (String × String)
deriving DecidableEq, Repr

/-- Modelled from the spec: createDoc derives the key from schema and initial
content alone and appends the document. -/
def createDoc (st : DbState) (schema : String) (fields : List (String × String)) :
    String × DbState :=
  let key := mkDocKey schema fields
  (key, { docs := st.docs ++ [(key, canonicalContent fields)] })

/-! ## HTTP error envelope -/

/-- The canonical reason phrases of the status codes the handlers use. -/
def statusText : Nat → String
  | 200 => "OK"
  | 400 => "Bad Request"
  | 404 => "Not Found"
  | 500 => "Internal Server Error"
  | _ => ""

structure ErrorExtensions where
  status : Nat
  httpError : String
  stack : Option String
deriving DecidableEq, Repr

structure ErrorItem where
  message : String
  extensions : ErrorExtensions
deriving DecidableEq, Repr

structure ErrorEnvelope where
  errors : List ErrorItem
deriving DecidableEq, Repr

structure HttpResponse where
  status : Nat
  body : ErrorEnvelope
deriving DecidableEq, Repr

/-- The error kinds of the handlers, §7 of the spec. -/
inductive ErrKind where
  | emptyBody
  | parseSyntax
  | unmarshalError
  | unsupportedContentType
  | cidDecode
  | noPeerId
  | noDatabase
  | invalidRelation
  | kvFailure
  | blockNotFound
  | mimeParse
deriving DecidableEq, Repr

/-- The HTTP status assigned to each error kind, §7 of the spec. -/
def statusOfKind : ErrKind → Nat
  | .emptyBody => 400
  | .parseSyntax => 400
  | .unmarshalError => 400
  | .unsupportedContentType => 400
  | .cidDecode => 400
  | .noPeerId => 404
  | .noDatabase => 500
  | .invalidRelation => 500
  | .kvFailure => 500
  | .blockNotFound => 500
  | .mimeParse => 500

/-- Modelled from the spec: the error response writer (handleErr, not under
src; only its tests are).  It sets the response status and renders the
envelope with extensions.status the numeric status, extensions.httpError its
canonical phrase, and a stack only in development mode. -/
def handleErr (status : Nat) (msg : String) (dev : Bool) : HttpResponse :=
  { status := status
    body :=
      { errors :=
          [ { message := msg
              extensions :=
                { status := status
                  httpError := statusText status
                  stack := if dev then some msg else none } } ] } }

/-- An erroring request is answered through handleErr at the status of its
error kind. -/
def respondError (k : ErrKind) (msg : String) (dev : Bool) : HttpResponse :=
  handleErr (statusOfKind k) msg dev

/-! ## Concrete data for witnesses -/

/-- Whether the first field of the collection is the implicit key field. -/
def keyFieldFirst (d : CollectionDescription) : Bool :=
  match d.fields with
  | [] => false
  | f :: _ => f.name == "_key"

/-- The users of the group-by scenario. -/
def johnRow : GroupRow := ⟨"bae-52b9170d-b77a-5887-b877-cbdbb99b009f", "John", 21⟩

def bobRow : GroupRow := ⟨"bae-0b2f15e5-bfe7-5cb7-8045-471318d7dbc3", "Bob", 32⟩

def fredRow : GroupRow := ⟨"bae-9b2e1434-9d61-5eb1-b3b9-82e8e40729a7", "Fred", 21⟩

def shahzadRow : GroupRow := ⟨"bae-3f1174ba-d9bc-5a6a-b0bc-8f19581f199d", "Shahzad", 21⟩

def testRows : List GroupRow := [johnRow, bobRow, fredRow, shahzadRow]

/-- The dockeys allow-list of the group-by scenario. -/
def testKeys : List String := [johnRow.dockey, fredRow.dockey]

/-- The composite-commit CID of the commits(cid:) test. -/
def demoCid : String :=
  "bafybeihxvx3f7eejvco6zbxsidoeuph6ywpbo33lrqm3picna2aj7pdeiu"

def demoCommit : StoredCommit := ⟨demoCid, 2, "age 22"⟩

def demoStore : List StoredCommit := [demoCommit]

theorem countDocs_eq_filter_length (docs : List SubDoc) :
    countDocs docs = (docs.filter (fun d => !d.hidden)).length := by
  induction docs with
  | nil => rfl
  | cons d rest ih =>
    cases h : d.hidden <;> simp [countDocs, List.filter, h, ih, Nat.add_comm]

theorem hexDigits_length (w : Nat) : ∀ n, (hexDigits w n).length = w := by
  induction w with
  | zero => intro n; rfl
  | succ w ih =>
    intro n
    simp [hexDigits, ih]

theorem uuidFormat_length (n : Nat) : (uuidFormat n).length = 36 := by
  simp [uuidFormat, String.length, hexDigits_length]

theorem filter_cid_eq_singleton (c : String) :
    ∀ l : List StoredCommit, (l.map (fun k => k.cid)).Nodup →
      ∀ k ∈ l, k.cid = c → l.filter (fun x => x.cid == c) = [k] := by
  intro l
  induction l with
  | nil =>
    intro _ k hk
    cases hk
  | cons x t ih =>
    intro hnd k hk hkc
    simp only [List.map_cons, List.nodup_cons] at hnd
    obtain ⟨hx, hndt⟩ := hnd
    rcases List.mem_cons.mp hk with rfl | hkt
    · have hnil : t.filter (fun y => y.cid == c) = [] := by
        refine List.filter_eq_nil_iff.mpr ?_
        intro y hy
        simp only [beq_iff_eq]
        intro hyc
        exact hx ((hyc.trans hkc.symm) ▸ List.mem_map.mpr ⟨y, hy, rfl⟩)
      simp [List.filter_cons, hkc, hnil]
    · have hxc : ¬(x.cid = c) := by
        intro h
        exact hx ((h.trans hkc.symm) ▸ List.mem_map.mpr ⟨k, hkt, rfl⟩)
      simp only [List.filter_cons, beq_iff_eq, hxc, if_false]
      exact ih hndt k hkt hkc

/-- Claim C1: after creating a document and then applying a single-field
update, allCommits for the document returns exactly two composite commits,
with heights 2 and 1 in that order (higher height first), and the composite
head set has size 1. -/
theorem allCommits_after_create_and_update :
    (allCommits docUpdated).map (fun c => c.height) = [2, 1]
    ∧ (allCommits docUpdated).all (fun c => c.fieldName == none) = true
    ∧ docUpdated.compositeHeads.length = 1 := by
  decide

/-- Claim C2 fails on the code: in the one-to-one fixture the book side of the
relation does not carry the Primary role, yet the book collection carries the
synthesized author_id internal foreign-key mirror. -/
theorem foreignKey_on_nonPrimary_side :
    ((bookDescOneToOne.fields.find? (fun f => f.name == "author")).map
        (fun f => f.relType.primary)) = some false
    ∧ hasIdMirrorName bookDescOneToOne "author" = true := by
  decide

/-- Claim C2 amended: a collection carries an internal-id foreign-key mirror
for a field exactly when that field is a single (non-array) foreign-object
field; in particular every Primary side carries one, and the non-Primary side
of a one-to-one relation also carries one, while the many (object-array) side
of a one-to-many carries none. -/
theorem idMirror_iff_foreignObject :
    schemaFixtures.all (fun d => d.fields.all fun f =>
        hasIdMirrorName d f.name == (f.kind == FieldKind.foreignObject)) = true
    ∧ schemaFixtures.all (fun d => d.fields.all fun f =>
        !f.relType.primary || hasIdMirrorName d f.name) = true := by
  decide

/-- Claim C3: resolving a one-to-one relation in which neither side is
annotated primary succeeds and promotes exactly one side to the Primary
role, namely the side declared later in source order. -/
theorem oneToOne_auto_primary_promotes_second (t1 f1 t2 f2 : String) :
    resolveOneToOne { sides := [⟨t1, f1, true, false⟩, ⟨t2, f2, true, false⟩] } =
      some { sides := [⟨t1, f1, true, false⟩, ⟨t2, f2, true, true⟩] }
    ∧ primaryCount { sides := [⟨t1, f1, true, false⟩, ⟨t2, f2, true, true⟩] } = 1 :=
  ⟨rfl, rfl⟩

/-- Claim C4 fails on the code: in the one-to-one fixture the author
collection emits the scalar fields age and name before the relation field
published, so the claimed relation-fields-first canonical order does not
hold. -/
theorem author_field_order_counterexample :
    authorDescOneToOne.fields.map (fun f => f.name) =
      ["_key", "age", "name", "published", "published_id"]
    ∧ claimedFieldOrder authorDescOneToOne = false := by
  decide

/-- Claim C4 amended: within every compiled collection description the key
field comes first and all remaining fields, relation fields and their
internal-id mirrors included, are emitted in ascending alphabetical order of
field name. -/
theorem fields_key_first_then_alphabetical :
    schemaFixtures.all (fun d =>
      keyFieldFirst d && namesSortedAsc ((d.fields.map fun f => f.name).drop 1)) = true := by
  decide

/-- Claim C5 fails on the code: a string-valued aggregate target is not an
array, yet countNode.Next contributes its length, here 2 rather than 0. -/
theorem count_string_target_counterexample :
    contribution [Property.pStr "ab"] ⟨0, none, none⟩ = 2
    ∧ goKind (Property.pStr "ab") ≠ GoKind.array
    ∧ goKind (Property.pStr "ab") ≠ GoKind.slice := by
  refine ⟨rfl, ?_, ?_⟩ <;> decide

/-- Claim C5 amended: an aggregate target whose value is not of array, chan,
map, slice or string kind contributes 0; a scalar-array target with filter
and limit contributes the length of the subsequence surviving the filter and
then the offset and limit; and a foreign-object-array target with a filter
or a limit present contributes the number of surviving (non-hidden)
documents handed down by the upstream select. -/
theorem count_contribution_amended :
    (∀ (p : Property) (fo : Option (Elem → Bool)) (lo : Option Limit),
        goKind p = GoKind.other → contribOf p fo lo = 0)
    ∧ (∀ (l : List Int) (fe : Elem → Bool) (off lim : Nat),
        contribOf (Property.pInts l) (some fe) (some ⟨lim, off⟩) =
          (((l.filter fun i => fe (Elem.eInt i)).drop off).take lim).length)
    ∧ (∀ (docs : List SubDoc) (fo : Option (Elem → Bool)) (lo : Option Limit),
        fo.isSome ∨ lo.isSome →
        contribOf (Property.pDocs docs) fo lo =
          (docs.filter fun d => !d.hidden).length) := by
  refine ⟨?_, ?_, ?_⟩
  · intro p fo lo h
    unfold contribOf
    rw [h]
  · intro l fe off lim
    rfl
  · intro docs fo lo h
    rcases fo with _ | f <;> rcases lo with _ | l
    · simp at h
    · exact countDocs_eq_filter_length docs
    · exact countDocs_eq_filter_length docs
    · exact countDocs_eq_filter_length docs

/-- Witness for the amended count claim at concrete inputs: a non-lengthable
target contributes 0, and a doc-array target with a filter but no limit
counts its non-hidden documents. -/
theorem count_contribution_amended_witness :
    contribOf Property.pNil none none = 0
    ∧ contribOf (Property.pDocs [⟨true⟩, ⟨false⟩]) (some fun _ => true) none = 1 :=
  ⟨count_contribution_amended.1 Property.pNil none none rfl,
    count_contribution_amended.2.2 [⟨true⟩, ⟨false⟩]
      (some fun _ => true) none (Or.inl rfl)⟩

/-- Claim C6: grouping with a dockeys allow-list keeps every bucket, and each
bucket holds in its _group exactly the rows of that bucket key whose document
key is in the allow-list; a bucket whose intersection with the allow-list is
empty still surfaces, with an empty _group list. -/
theorem group_dockeys_allowlist (rows : List GroupRow) (key : GroupRow → Int)
    (ks : List String) :
    ((groupResult rows key (some ks)).map Prod.fst =
        (groupRows rows key).map Prod.fst)
    ∧ ∀ b ∈ groupResult rows key (some ks), ∀ r : GroupRow,
        r ∈ b.2 ↔ r ∈ rows ∧ key r = b.1 ∧ r.dockey ∈ ks := by
  constructor
  · simp [groupResult]
  · intro b hb r
    simp only [groupResult, List.mem_map] at hb
    obtain ⟨b0, hb0, rfl⟩ := hb
    simp only [groupRows, List.mem_map] at hb0
    obtain ⟨k, hk, rfl⟩ := hb0
    simp only [applyDocKeys, List.mem_filter, beq_iff_eq, List.contains,
      List.elem_iff]
    tauto

/-- Witness for the group-by claim on the scenario of the test: John is in
the _group of the age-21 bucket because his dockey is allowed. -/
theorem group_dockeys_allowlist_witness :
    johnRow ∈ ((21 : Int), [johnRow, fredRow]).2 ↔
      johnRow ∈ testRows ∧ (fun r : GroupRow => r.age) johnRow =
        ((21 : Int), [johnRow, fredRow]).1 ∧ johnRow.dockey ∈ testKeys :=
  (group_dockeys_allowlist testRows (fun r => r.age) testKeys).2
    (21, [johnRow, fredRow]) (by decide) johnRow

/-- Claim C7: the commits query by CID never raises an error; when the CID is
valid and matches a stored commit (store CIDs being distinct) it returns that
single commit, and otherwise, an unknown or syntactically invalid CID
included, it returns the empty sequence. -/
theorem commits_cid_single_or_empty (store : List StoredCommit) (c : String)
    (hnodup : (store.map (fun k => k.cid)).Nodup) :
    (commitsWithCid store c).isOk = true
    ∧ (∀ k ∈ store, k.cid = c → validCidString c = true →
        commitsWithCid store c = Except.ok [k])
    ∧ ((∀ k ∈ store, ¬(k.cid = c)) → commitsWithCid store c = Except.ok [])
    ∧ (validCidString c = false → commitsWithCid store c = Except.ok []) := by
  refine ⟨?_, ?_, ?_, ?_⟩
  · unfold commitsWithCid
    split <;> rfl
  · intro k hk hkc hv
    unfold commitsWithCid
    rw [hv]
    simp only [if_true]
    rw [filter_cid_eq_singleton c store hnodup k hk hkc]
  · intro hnone
    unfold commitsWithCid
    split
    · have : store.filter (fun x => x.cid == c) = [] := by
        refine List.filter_eq_nil_iff.mpr ?_
        intro y hy
        simp only [beq_iff_eq]
        exact hnone y hy
      rw [this]
    · rfl
  · intro hv
    unfold commitsWithCid
    rw [hv]
    simp

/-- Witness for the commits-by-CID claim at the store and CID of the test. -/
theorem commits_cid_single_or_empty_witness :
    commitsWithCid demoStore demoCid = Except.ok [demoCommit] :=
  (commits_cid_single_or_empty demoStore demoCid (by decide)).2.1
    demoCommit (by decide) rfl (by decide)

/-- Claim C8: creating a document with a given schema and initial field
values yields a key that does not depend on the prior database state, so
re-creating with identical content yields the identical key, and the key has
the form bae- followed by a 36-character uuid. -/
theorem docKey_deterministic_and_formed (st1 st2 : DbState) (schema : String)
    (fields : List (String × String)) :
    (createDoc st1 schema fields).1 = (createDoc st2 schema fields).1
    ∧ ∃ t : String, (createDoc st1 schema fields).1 = "bae-" ++ t ∧ t.length = 36 :=
  ⟨rfl, uuidFormat (uuidDigest schema (canonicalContent fields)), rfl,
    uuidFormat_length _⟩

/-- Claim C9: every error response carries exactly one error whose
extensions.status equals the numeric HTTP status of the response and whose
extensions.httpError is that status's canonical reason phrase. -/
theorem error_envelope_status_phrase (k : ErrKind) (msg : String) (dev : Bool) :
    ((respondError k msg dev).body.errors.map
        (fun e => (e.extensions.status, e.extensions.httpError))) =
      [((respondError k msg dev).status,
        statusText (respondError k msg dev).status)]
    ∧ statusText 400 = "Bad Request"
    ∧ statusText 404 = "Not Found"
    ∧ statusText 500 = "Internal Server Error" :=
  ⟨rfl, rfl, rfl, rfl⟩

/-- Claim C10: countNode.Next applies the length operation only to values of
array, chan, map, slice or string kind: any other kind contributes nothing,
a value of one of those kinds with no filter and no limit contributes its
length, and counting a slice of documents skips entries marked hidden.  The
embedding of Next is a total function, matching the panic-freedom of the
guarded switch. -/
theorem count_guarded_length_and_hidden :
    (∀ (fields : List Property) (t : AggregateTarget),
        goKind (fields.getD t.index Property.pNil) = GoKind.other →
        contribution fields t = 0)
    ∧ (∀ p : Property, ¬(goKind p = GoKind.other) → contribOf p none none = goLen p)
    ∧ ∀ docs : List SubDoc, countDocs docs = (docs.filter fun d => !d.hidden).length := by
  refine ⟨?_, ?_, countDocs_eq_filter_length⟩
  · intro fields t h
    unfold contribution contribOf
    rw [h]
  · intro p h
    unfold contribOf
    cases hg : goKind p <;> simp_all

/-- Witness for the count safety claim at concrete inputs. -/
theorem count_guarded_length_and_hidden_witness :
    contribution [Property.pBool true] ⟨0, none, none⟩ = 0
    ∧ contribOf (Property.pStrs ["a", "bc"]) none none = 2 :=
  ⟨count_guarded_length_and_hidden.1 [Property.pBool true] ⟨0, none, none⟩ rfl,
    count_guarded_length_and_hidden.2.1 (Property.pStrs ["a", "bc"]) (by decide)⟩

end DefraDB
